import Mathlib

/-!
Verification of the due-date classification and deduplication engine of the
insurance-reminder repository.

Shallow embedding conventions:
* Calendar dates are modelled as `Nat` day numbers (the code only compares
  dates and adds day counts, so the order/|+days| structure is all that is
  used).  Optional dates are `Option Nat` with `none` for SQL `NULL` /
  Python `None`.
* Strings are Lean `String`s; phone numbers are handled as `List Char`
  (the character sequence of the Python string).
* The database `users` table is a `List User` in storage order.  SQL
  `SELECT ... WHERE p ORDER BY due_day ASC` is modelled as a filter
  followed by a stable sort on `due_day`; MySQL sorts `NULL` before all
  non-`NULL` dates in ascending order, and leaves ties in an unspecified
  (here: table) order.  `SELECT DISTINCT` is the identity here because the
  selected columns include the unique auto-increment primary key `id`.
* Python code that raises is modelled with `Except String`.
-/

/-- One insurance policy record, after `app/models/user.py` (`@dataclass
class User`).  Field names and order follow the dataclass. -/
structure User where
  nickname : String := ""
  full_name : String := ""
  cell_phone : String := ""
  car_type : String := ""
  license_plate : String := ""
  due_month : Option Nat := none
  notice : Option Nat := none
  due_day : Option Nat := none
  made_on : Option Nat := none
  amount : Int := 0
  installments : Int := 0
  policy_number : String := ""
  id : Option Int := none
deriving DecidableEq, Repr

/-- The Python function `str` applied to an optional date: `str(None) = "None"`,
`str(d)` is the decimal rendering of the date (stands for the ISO string; only
its injectivity and distinctness from `"None"` matter). -/
def strOptDate : Option Nat → String
  | none => "None"
  | some d => toString d

/-- The natural-identity key used by `NotificationService.deduplicate_users`
and `ExcelService.get_users`: `(user.full_name, str(user.due_day),
user.policy_number)`. -/
def userKey (u : User) : String × String × String :=
  (u.full_name, strOptDate u.due_day, u.policy_number)

/-! ### Classification queries (`UserRepository.get_due_soon` / `get_overdue`)

`get_due_soon(days)` runs
`WHERE (notice IS NOT NULL AND notice BETWEEN today AND today+days)
   OR (due_day IS NOT NULL AND due_day BETWEEN today AND today+days)
 ORDER BY due_day ASC`,
`get_overdue()` runs
`WHERE due_day IS NOT NULL AND due_day < today ORDER BY due_day ASC`. -/

/-- SQL predicate `notice IS NOT NULL AND notice BETWEEN today AND today + days`. -/
def noticeInWindow (today days : Nat) (u : User) : Bool :=
  match u.notice with
  | some n => decide (today ≤ n) && decide (n ≤ today + days)
  | none => false

/-- SQL predicate `due_day IS NOT NULL AND due_day BETWEEN today AND today + days`. -/
def dueInWindow (today days : Nat) (u : User) : Bool :=
  match u.due_day with
  | some d => decide (today ≤ d) && decide (d ≤ today + days)
  | none => false

/-- SQL predicate `due_day IS NOT NULL AND due_day < today`. -/
def dueBefore (today : Nat) (u : User) : Bool :=
  match u.due_day with
  | some d => decide (d < today)
  | none => false

/-- Sort key for `ORDER BY due_day ASC` under MySQL semantics: `NULL`
sorts before every real date, real dates by calendar order. -/
def dueSortKey : Option Nat → Nat
  | none => 0
  | some d => d + 1

/-- The `ORDER BY due_day ASC` comparison between two rows. -/
def dueLe (u v : User) : Prop :=
  dueSortKey u.due_day ≤ dueSortKey v.due_day

instance : DecidableRel dueLe := fun u v =>
  Nat.decLe (dueSortKey u.due_day) (dueSortKey v.due_day)

instance : IsTotal User dueLe :=
  ⟨fun u v => Nat.le_total (dueSortKey u.due_day) (dueSortKey v.due_day)⟩

instance : IsTrans User dueLe :=
  ⟨fun _ _ _ h h' => Nat.le_trans h h'⟩

/-- Model of `ORDER BY due_day ASC`: stable sort of the selected rows on
`dueSortKey` (ties stay in table order). -/
def orderByDueDayAsc (l : List User) : List User :=
  List.insertionSort dueLe l

/-- Model of `UserRepository.get_due_soon(days)` over table `table` with the
ambient `date.today()` made explicit as `today`. -/
def get_due_soon (table : List User) (today days : Nat) : List User :=
  orderByDueDayAsc
    (table.filter (fun u => noticeInWindow today days u || dueInWindow today days u))

/-- Model of `UserRepository.get_overdue()` over table `table` with the ambient
`date.today()` made explicit as `today`. -/
def get_overdue (table : List User) (today : Nat) : List User :=
  orderByDueDayAsc (table.filter (dueBefore today))

/-! Membership of the two query results. -/

theorem mem_orderByDueDayAsc {u : User} {l : List User} :
    u ∈ orderByDueDayAsc l ↔ u ∈ l :=
  List.mem_insertionSort dueLe

theorem mem_get_due_soon {u : User} {table : List User} {today days : Nat} :
    u ∈ get_due_soon table today days ↔
      u ∈ table ∧ (noticeInWindow today days u = true ∨ dueInWindow today days u = true) := by
  unfold get_due_soon
  rw [mem_orderByDueDayAsc, List.mem_filter]
  simp [Bool.or_eq_true]

theorem mem_get_overdue {u : User} {table : List User} {today : Nat} :
    u ∈ get_overdue table today ↔ u ∈ table ∧ dueBefore today u = true := by
  unfold get_overdue
  rw [mem_orderByDueDayAsc, List.mem_filter]

/-! ### Deduplication (`NotificationService.deduplicate_users`, and the
duplicate-counting loop of `ExcelService.get_users`)

Both sites run the same loop: a `seen` set of natural-identity keys, a
list of retained users in input order, and (in `get_users`) a
`duplicate_count` incremented for every record whose key is already in
`seen`. -/

/-- The loop of `NotificationService.deduplicate_users`, with the `seen`
set made an explicit accumulator (modelled as the list of keys added so
far; only membership is used). -/
def dedupeGo (seen : List (String × String × String)) : List User → List User
  | [] => []
  | u :: us =>
    if userKey u ∈ seen then dedupeGo seen us
    else u :: dedupeGo (userKey u :: seen) us

/-- Model of `NotificationService.deduplicate_users`: keep the first record for
each natural-identity key, in input order. -/
def deduplicate_users (users : List User) : List User :=
  dedupeGo [] users

/-- The same loop together with the `duplicate_count` accumulator kept by
`ExcelService.get_users` (lines 100-107): the count of records dropped
because their key was already seen. -/
def dedupeCountGo (seen : List (String × String × String)) :
    List User → List User × Nat
  | [] => ([], 0)
  | u :: us =>
    if userKey u ∈ seen then
      ((dedupeCountGo seen us).1, (dedupeCountGo seen us).2 + 1)
    else
      (u :: (dedupeCountGo (userKey u :: seen) us).1, (dedupeCountGo (userKey u :: seen) us).2)

/-- Deduplication with the suppressed-duplicate count, as materialised by
`ExcelService.get_users` (`users`, `duplicate_count`). -/
def dedupeWithCount (users : List User) : List User × Nat :=
  dedupeCountGo [] users

/-- Reference form of first-occurrence deduplication: keep the head,
then recurse on the tail purged of records sharing the key of the head. -/
def keepFirstByKey : List User → List User
  | [] => []
  | u :: us =>
    u :: keepFirstByKey (us.filter (fun v => decide (userKey v ≠ userKey u)))
termination_by l => l.length
decreasing_by
  exact Nat.lt_succ_of_le (List.length_filter_le _ _)

theorem keepFirstByKey_length_le : ∀ l : List User, (keepFirstByKey l).length ≤ l.length
  | [] => by simp [keepFirstByKey]
  | u :: us => by
    rw [keepFirstByKey]
    have h1 := keepFirstByKey_length_le (us.filter (fun v => decide (userKey v ≠ userKey u)))
    have h2 := List.length_filter_le (fun v => decide (userKey v ≠ userKey u)) us
    simpa using Nat.le_trans h1 h2
termination_by l => l.length
decreasing_by
  exact Nat.lt_succ_of_le (List.length_filter_le _ _)

theorem mem_keepFirstByKey : ∀ {l : List User} {v : User}, v ∈ keepFirstByKey l → v ∈ l
  | [], _, h => by simp [keepFirstByKey] at h
  | u :: us, v, h => by
    rw [keepFirstByKey] at h
    rcases List.mem_cons.mp h with h | h
    · exact h ▸ List.mem_cons_self u us
    · exact List.mem_cons_of_mem u (List.mem_of_mem_filter (mem_keepFirstByKey h))
termination_by l => l.length
decreasing_by
  exact Nat.lt_succ_of_le (List.length_filter_le _ _)

/-- The dedupe loop, for any starting `seen` set, retains the first
occurrences of the not-yet-seen keys and counts everything else. -/
theorem dedupeCountGo_eq : ∀ (l : List User) (seen : List (String × String × String)),
    dedupeCountGo seen l =
      (keepFirstByKey (l.filter (fun u => decide (userKey u ∉ seen))),
       l.length - (keepFirstByKey (l.filter (fun u => decide (userKey u ∉ seen)))).length)
  | [], seen => by simp [dedupeCountGo, keepFirstByKey]
  | u :: us, seen => by
    by_cases h : userKey u ∈ seen
    · have hfilter :
          (u :: us).filter (fun v => decide (userKey v ∉ seen)) =
            us.filter (fun v => decide (userKey v ∉ seen)) := by
        simp [List.filter_cons, h]
      have hle : (keepFirstByKey (us.filter (fun v => decide (userKey v ∉ seen)))).length
          ≤ us.length :=
        Nat.le_trans (keepFirstByKey_length_le _) (List.length_filter_le _ _)
      rw [dedupeCountGo, if_pos h, dedupeCountGo_eq us seen, hfilter, List.length_cons]
      refine Prod.ext rfl ?_
      show (us.length - _) + 1 = us.length + 1 - _
      omega
    · have hfilter :
          (u :: us).filter (fun v => decide (userKey v ∉ seen)) =
            u :: us.filter (fun v => decide (userKey v ∉ seen)) := by
        simp [List.filter_cons, h]
      have hswap :
          us.filter (fun v => decide (userKey v ∉ userKey u :: seen)) =
            (us.filter (fun v => decide (userKey v ∉ seen))).filter
              (fun v => decide (userKey v ≠ userKey u)) := by
        rw [List.filter_filter]
        apply List.filter_congr
        intro v _
        by_cases h1 : userKey v = userKey u <;> by_cases h2 : userKey v ∈ seen <;>
          simp [h1, h2]
      rw [dedupeCountGo, if_neg h, dedupeCountGo_eq us (userKey u :: seen), hswap, hfilter,
        keepFirstByKey, List.length_cons, List.length_cons]
      refine Prod.ext rfl ?_
      show us.length - _ = us.length + 1 - (_ + 1)
      omega

theorem dedupeGo_eq_fst : ∀ (l : List User) (seen : List (String × String × String)),
    dedupeGo seen l = (dedupeCountGo seen l).1
  | [], _ => rfl
  | u :: us, seen => by
    by_cases h : userKey u ∈ seen
    · rw [dedupeGo, if_pos h, dedupeCountGo, if_pos h, dedupeGo_eq_fst us seen]
    · rw [dedupeGo, if_neg h, dedupeCountGo, if_neg h, dedupeGo_eq_fst us (userKey u :: seen)]

/-- Function `deduplicate_users` computes exactly the first-occurrence filter. -/
theorem deduplicate_users_eq_keepFirst (users : List User) :
    deduplicate_users users = keepFirstByKey users := by
  unfold deduplicate_users
  rw [dedupeGo_eq_fst, dedupeCountGo_eq users []]
  simp

/-- Function `dedupeWithCount` pairs the retained list with the number of dropped records. -/
theorem dedupeWithCount_eq (users : List User) :
    dedupeWithCount users =
      (keepFirstByKey users, users.length - (keepFirstByKey users).length) := by
  unfold dedupeWithCount
  rw [dedupeCountGo_eq users []]
  simp

/-! Idempotence machinery for deduplication. -/

theorem keepFirstByKey_idem : ∀ l : List User,
    keepFirstByKey (keepFirstByKey l) = keepFirstByKey l
  | [] => by simp [keepFirstByKey]
  | u :: us => by
    rw [keepFirstByKey]
    have hself :
        (keepFirstByKey (us.filter (fun v => decide (userKey v ≠ userKey u)))).filter
            (fun v => decide (userKey v ≠ userKey u)) =
          keepFirstByKey (us.filter (fun v => decide (userKey v ≠ userKey u))) := by
      apply List.filter_eq_self.mpr
      intro v hv
      have hv2 : v ∈ us.filter (fun w => decide (userKey w ≠ userKey u)) :=
        mem_keepFirstByKey hv
      exact (List.mem_filter.mp hv2).2
    rw [keepFirstByKey, hself,
      keepFirstByKey_idem (us.filter (fun v => decide (userKey v ≠ userKey u)))]
termination_by l => l.length
decreasing_by
  exact Nat.lt_succ_of_le (List.length_filter_le _ _)

/-! ### Notification message building
(`NotificationService.check_upcoming_insurance`, lines 231-245)

For each (deduplicated) record the code picks at most one message:
the notice-date reminder when `user.notice == self.today`, else the
due-today message when `user.due_day == self.today`, else none. -/

/-- Model of `format_date` from `app/utils/date_helpers.py`: `""` for a missing
date, otherwise the `DATE_FORMAT` rendering of the date (modelled by the
decimal rendering of the day number). -/
def format_date : Option Nat → String
  | none => ""
  | some d => toString d

/-- The advance-reminder text built when `user.notice == today`. -/
def noticeMessage (u : User) : String :=
  "Hello " ++ u.full_name ++ ", this is a reminder that your insurance " ++
    "for " ++ u.car_type ++ " (" ++ u.license_plate ++ ") will be due on " ++
    format_date u.due_day ++ "."

/-- The urgent text built when `user.due_day == today`. -/
def dueTodayMessage (u : User) : String :=
  "Hello " ++ u.full_name ++ ", your insurance for " ++ u.car_type ++
    " (" ++ u.license_plate ++ ") is due TODAY. Please make your payment as soon as possible."

/-- The message decision of `check_upcoming_insurance` for one record
(`self.today` made explicit). `none` means no message is produced. -/
def check_message (today : Nat) (u : User) : Option String :=
  if u.notice = some today then some (noticeMessage u)
  else if u.due_day = some today then some (dueTodayMessage u)
  else none

/-! ### Date-window predicates (`app/utils/date_helpers.py`)

`DateRange.contains` evaluates `self.start_date <= check_date <=
self.end_date`; in Python a `None` check date makes that comparison raise
`TypeError`, modelled as `Except.error`. -/

/-- Structure `DateRange` after `__init__`: `end_date` falls back to
`start_date + days`, then to `start_date`. -/
structure DateRange where
  start_date : Nat
  end_date : Nat
deriving DecidableEq, Repr

/-- Model of `DateRange.__init__(start_date, end_date=None, days=None)`. -/
def DateRange.make (start : Nat) (endd : Option Nat) (days : Option Nat) : DateRange :=
  match endd with
  | some e => ⟨start, e⟩
  | none =>
    match days with
    | some k => ⟨start, start + k⟩
    | none => ⟨start, start⟩

/-- Model of `DateRange.contains(check_date)` over an optional date: a present
date is compared with the bounds, an absent date raises `TypeError`. -/
def DateRange.contains (r : DateRange) (check_date : Option Nat) : Except String Bool :=
  match check_date with
  | some d => Except.ok (decide (r.start_date ≤ d) && decide (d ≤ r.end_date))
  | none => Except.error "TypeError: comparison between NoneType and date"

/-- Modelled from the spec: the `isPast(date, referenceDate)` function of the Date Window Calculator has no counterpart in the source (no
is-past helper exists in `date_helpers.py`; the overdue comparison lives
in SQL). Following spec section 4.1: true iff the date is set and
strictly before the reference date, false on an absent date. -/
def isPast (d : Option Nat) (referenceDate : Nat) : Bool :=
  match d with
  | some x => decide (x < referenceDate)
  | none => false

/-! ### Phone normalization (`NotificationService.normalize_phone`)

The Python string is modelled by its character sequence. `if not phone`
is the empty-string test; `cleaned` keeps digits and plus signs;
`startswith` inspects the head; `cleaned[1:]` is the tail. -/

/-- Characters kept by the cleaning comprehension: `c.isdigit() or c == '+'`. -/
def phoneKeep (c : Char) : Bool :=
  c.isDigit || c == '+'

/-- Model of the cleaning join: keep exactly the characters satisfying `c.isdigit() or c == '+'`. -/
def cleanPhone (phone : List Char) : List Char :=
  phone.filter phoneKeep

/-- Model of `NotificationService.normalize_phone`: empty input stays empty;
otherwise the cleaned characters are returned as-is when they start with
`'+'`, with a leading `'0'` replaced by the country prefix `+359`, and
with a bare `'+'` prepended in every other case. -/
def normalize_phone (phone : List Char) : List Char :=
  if phone = [] then []
  else if (cleanPhone phone).head? = some '+' then cleanPhone phone
  else if (cleanPhone phone).head? = some '0' then
    '+' :: '3' :: '5' :: '9' :: (cleanPhone phone).tail
  else '+' :: cleanPhone phone

/-- The transform described by the claim (spec wording): strip
non-digit/non-plus characters and prefix any cleaned number with no
leading `'+'` with the fixed country code `+359`. -/
def claimedNormalizePhone (phone : List Char) : List Char :=
  if phone = [] then []
  else if (cleanPhone phone).head? = some '+' then cleanPhone phone
  else '+' :: '3' :: '5' :: '9' :: cleanPhone phone

/-! ### Numeric-field handling at ingestion and construction
(`ExcelService.get_users` lines 79-88, `validate_user_data`,
`BaseModel.from_dict`)

A raw spreadsheet/constructor cell is either missing (`NaN`/`None`), an
integer, or a string. -/

/-- A raw cell value for a numeric field. -/
inductive CellVal where
  | nanv
  | intv (n : Int)
  | strv (s : String)
deriving DecidableEq, Repr

/-- Python truthiness of a cell value (`data.get(field)` used as a condition). -/
def cellTruthy : CellVal → Bool
  | .nanv => false
  | .intv n => decide (n ≠ 0)
  | .strv s => decide (s ≠ "")

/-- Python `int(value)`: identity on ints, parse for strings, failure
(`TypeError`) on `None`. -/
def cellToIntOpt : CellVal → Option Int
  | .nanv => none
  | .intv n => some n
  | .strv s => s.toInt?

/-- Numeric conversion in `ExcelService.get_users` (lines 79-88):
`int(row[f]) if pd.notna(row[f]) else 0`, with `ValueError`/`TypeError`
normalised to 0. -/
def excelNumeric (raw : CellVal) : Int :=
  match raw with
  | .nanv => 0
  | .intv n => n
  | .strv s =>
    match s.toInt? with
    | some n => n
    | none => 0

/-- Model of `Validator.validate_positive_integer`: `None` and the empty string are allowed,
otherwise `int(value)` must succeed and be `>= 0`. -/
def validate_positive_integer (v : CellVal) : Bool :=
  match v with
  | .nanv => true
  | .strv "" => true
  | _ =>
    match cellToIntOpt v with
    | some n => decide (0 ≤ n)
    | none => false

/-- The effect of `validate_user_data` on one numeric field (`amount` or
`installments`, with the error message of that field): collect a validation
error when `validate_positive_integer` fails (the function then raises
`ValidationError`), otherwise convert a truthy valid value with `int()`
(`except` falling back to 0) and leave falsy values untouched. -/
def fromDictNumeric (errMsg : String) (v : CellVal) : Except String CellVal :=
  if validate_positive_integer v = false then Except.error errMsg
  else if cellTruthy v then
    match cellToIntOpt v with
    | some n => Except.ok (.intv n)
    | none => Except.ok (.intv 0)
  else Except.ok v

/-- The full ingestion pipeline for one numeric field: the Excel
conversion (always an `Int`), then construction through
`User.from_dict` / `validate_user_model` / `validate_user_data`. -/
def ingestNumeric (errMsg : String) (raw : CellVal) : Except String CellVal :=
  fromDictNumeric errMsg (.intv (excelNumeric raw))

/-! ### Predicates in propositional form -/

theorem noticeInWindow_iff {today days : Nat} {u : User} :
    noticeInWindow today days u = true ↔
      ∃ n, u.notice = some n ∧ today ≤ n ∧ n ≤ today + days := by
  cases h : u.notice with
  | none => simp [noticeInWindow, h]
  | some n => simp [noticeInWindow, h, and_assoc]

theorem dueInWindow_iff {today days : Nat} {u : User} :
    dueInWindow today days u = true ↔
      ∃ d, u.due_day = some d ∧ today ≤ d ∧ d ≤ today + days := by
  cases h : u.due_day with
  | none => simp [dueInWindow, h]
  | some d => simp [dueInWindow, h, and_assoc]

theorem dueBefore_iff {today : Nat} {u : User} :
    dueBefore today u = true ↔ ∃ d, u.due_day = some d ∧ d < today := by
  cases h : u.due_day with
  | none => simp [dueBefore, h]
  | some d => simp [dueBefore, h]

/-! ### Concrete records used in counterexamples and witnesses -/

/-- A record whose due date (day 3) is already past reference day 5 and
whose notice date is unset. -/
def uPastDue : User := { full_name := "Ana", due_day := some 3 }

/-- A past-due record whose notice date lies inside the notice window of
reference day 5. -/
def uPastDueNoticed : User := { full_name := "Ana", due_day := some 3, notice := some 6 }

theorem due_soon_mem_prop (table : List User) (today days : Nat) (u : User) :
    u ∈ get_due_soon table today days ↔
      u ∈ table ∧
        ((∃ n, u.notice = some n ∧ today ≤ n ∧ n ≤ today + days) ∨
         (∃ d, u.due_day = some d ∧ today ≤ d ∧ d ≤ today + days)) := by
  rw [mem_get_due_soon, noticeInWindow_iff, dueInWindow_iff]

/-! ### Claim C1 -/

/-- Claim C1 as stated is false: a record whose `due_day` (3) is strictly
before the reference date (5) — so the second disjunct of the claim holds —
is not contained in `get_due_soon` (the SQL keeps only due days inside
the forward window `[today, today+days]`). -/
theorem C1_counterexample :
    uPastDue.due_day = some 3 ∧ 3 < 5 ∧
      uPastDue ∉ get_due_soon [uPastDue] 5 5 := by decide

/-- Claim C1 (amended): `get_due_soon` contains a record iff the record
is in the table and (its notice date is set and lies within
`[referenceDate, referenceDate+days]`) or (its due day is set and lies
within `[referenceDate, referenceDate+days]`). -/
theorem C1_due_soon_iff (table : List User) (today days : Nat) (u : User) :
    u ∈ get_due_soon table today days ↔
      u ∈ table ∧
        ((∃ n, u.notice = some n ∧ today ≤ n ∧ n ≤ today + days) ∨
         (∃ d, u.due_day = some d ∧ today ≤ d ∧ d ≤ today + days)) :=
  due_soon_mem_prop table today days u

/-! ### Claim C2 -/

/-- Claim C2 as stated is false: this record is in `get_overdue` for
reference day 5 and has a set `due_day`, but is not in `get_due_soon`
for the same table and reference day (with a 5-day window). -/
theorem C2_counterexample :
    uPastDue ∈ get_overdue [uPastDue] 5 ∧ uPastDue.due_day.isSome = true ∧
      uPastDue ∉ get_due_soon [uPastDue] 5 5 := by decide

/-- Claim C2 (amended): every record returned by `get_overdue` has a set
`due_day` strictly before the reference date; such a record appears in
`get_due_soon` for the same inputs iff its notice date is set and lies
within `[referenceDate, referenceDate+days]` (never because of its due
day, which is already past the window). -/
theorem C2_overdue_characterization (table : List User) (today days : Nat) (u : User)
    (h : u ∈ get_overdue table today) :
    (∃ d, u.due_day = some d ∧ d < today) ∧
      (u ∈ get_due_soon table today days ↔
        ∃ n, u.notice = some n ∧ today ≤ n ∧ n ≤ today + days) := by
  rw [mem_get_overdue, dueBefore_iff] at h
  obtain ⟨hmem, d, hd, hdlt⟩ := h
  refine ⟨⟨d, hd, hdlt⟩, ?_⟩
  rw [due_soon_mem_prop]
  constructor
  · rintro ⟨-, hcond | ⟨d', hd', hled', -⟩⟩
    · exact hcond
    · rw [hd] at hd'
      cases hd'
      exact absurd hdlt (Nat.not_lt.mpr hled')
  · intro hn
    exact ⟨hmem, Or.inl hn⟩

/-- Witness for the theorem of claim C2 at a concrete overdue record whose
notice date lies in the window. -/
theorem C2_witness :
    (∃ d, uPastDueNoticed.due_day = some d ∧ d < 5) ∧
      (uPastDueNoticed ∈ get_due_soon [uPastDueNoticed] 5 5 ↔
        ∃ n, uPastDueNoticed.notice = some n ∧ 5 ≤ n ∧ n ≤ 5 + 5) :=
  C2_overdue_characterization [uPastDueNoticed] 5 5 uPastDueNoticed (by decide)

/-! ### Claim C3 -/

/-- Claim C3 (confirmed): deduplication keeps exactly the first
occurrence of each natural-identity key in input order (the
first-occurrence filter `keepFirstByKey`), drops every later occurrence
with the same key, and the suppressed-duplicate count kept alongside the
retained records is exactly the number of dropped records. -/
theorem C3_dedupe_first_occurrence (users : List User) :
    deduplicate_users users = keepFirstByKey users ∧
      dedupeWithCount users =
        (deduplicate_users users,
         users.length - (deduplicate_users users).length) := by
  refine ⟨deduplicate_users_eq_keepFirst users, ?_⟩
  rw [dedupeWithCount_eq, deduplicate_users_eq_keepFirst]

/-! ### Claim C8 -/

/-- Claim C8 (confirmed): deduplication is idempotent — re-deduplicating
the retained records returns them unchanged and suppresses nothing
further (the count of dropped duplicates is 0). -/
theorem C8_dedupe_idempotent (users : List User) :
    deduplicate_users (deduplicate_users users) = deduplicate_users users ∧
      dedupeWithCount (deduplicate_users users) = (deduplicate_users users, 0) := by
  have h1 : deduplicate_users (deduplicate_users users) = deduplicate_users users := by
    simp only [deduplicate_users_eq_keepFirst, keepFirstByKey_idem]
  refine ⟨h1, ?_⟩
  rw [dedupeWithCount_eq]
  have h2 : keepFirstByKey (deduplicate_users users) = deduplicate_users users := by
    simp only [deduplicate_users_eq_keepFirst, keepFirstByKey_idem]
  rw [h2, Nat.sub_self]

/-! ### Claim C5 -/

/-- Claim C5 (confirmed): for each record the notifier produces the
advance "will be due on" reminder (naming vehicle, plate and formatted
due day) exactly when `notice` equals the reference date; otherwise the
"due TODAY" urgent message exactly when `due_day` equals the reference
date; otherwise no message. In particular a message exists iff `notice`
or `due_day` equals the reference date, with the notice branch first. -/
theorem C5_message_builder (u : User) (today : Nat) :
    ((check_message today u).isSome = true ↔
      (u.notice = some today ∨ u.due_day = some today)) ∧
      (u.notice = some today → check_message today u = some (noticeMessage u)) ∧
      (u.notice ≠ some today → u.due_day = some today →
        check_message today u = some (dueTodayMessage u)) ∧
      (u.notice ≠ some today → u.due_day ≠ some today → check_message today u = none) := by
  unfold check_message
  by_cases h1 : u.notice = some today <;> by_cases h2 : u.due_day = some today <;>
    simp [h1, h2]

/-- A record whose notice date and due day both equal reference day 7:
the notice branch must win. -/
def uNoticeToday : User :=
  { full_name := "Ana", car_type := "Opel", license_plate := "CA1234AB",
    notice := some 7, due_day := some 7 }

/-- A record with no notice date whose due day is reference day 7. -/
def uDueToday : User :=
  { full_name := "Ana", car_type := "Opel", license_plate := "CA1234AB",
    due_day := some 7 }

/-- Witness for the theorem of claim C5: the notice branch fires (and takes
priority) at `uNoticeToday`, the due-today branch at `uDueToday`. -/
theorem C5_witness :
    check_message 7 uNoticeToday = some (noticeMessage uNoticeToday) ∧
      check_message 7 uDueToday = some (dueTodayMessage uDueToday) :=
  ⟨(C5_message_builder uNoticeToday 7).2.1 (by decide),
   (C5_message_builder uDueToday 7).2.2.1 (by decide) (by decide)⟩

/-! ### Claim C6 -/

/-- The ordering asserted by the claim: ascending by `due_day` with
absent due days last, ties broken by `full_name` ascending. -/
def claimOrderLe (u v : User) : Bool :=
  match u.due_day, v.due_day with
  | some a, some b => if a = b then decide (u.full_name ≤ v.full_name) else decide (a < b)
  | some _, none => true
  | none, some _ => false
  | none, none => decide (u.full_name ≤ v.full_name)

/-- A list is sorted for `le` when every adjacent pair is. -/
def pairwiseSortedBool (le : User → User → Bool) : List User → Bool
  | [] => true
  | [_] => true
  | u :: v :: rest => le u v && pairwiseSortedBool le (v :: rest)

/-- A record with a real due day, qualifying for the notice window of
reference day 5. -/
def uDueFive : User := { full_name := "B", due_day := some 5, notice := some 5 }

/-- A record with no due day, qualifying for the notice window of
reference day 5. -/
def uDueNone : User := { full_name := "N", notice := some 5 }

/-- Claim C6 as stated is false: on this table `get_due_soon` returns
the record with an absent `due_day` first, not last (MySQL sorts `NULL`
due days before all real dates in `ORDER BY due_day ASC`), so the output
is not ordered as the claim asserts. -/
theorem C6_counterexample :
    get_due_soon [uDueFive, uDueNone] 5 0 = [uDueNone, uDueFive] ∧
      pairwiseSortedBool claimOrderLe (get_due_soon [uDueFive, uDueNone] 5 0) = false := by
  decide

/-- Claim C6 (amended): the outputs of `get_due_soon` and `get_overdue`
are sorted ascending by `due_day` with absent due days placed first
(`dueLe`), each a permutation of the table rows matching the
corresponding predicate; ties on equal `due_day` are not reordered (no
`full_name` tie-break). -/
theorem C6_query_order (table : List User) (today days : Nat) :
    List.Sorted dueLe (get_due_soon table today days) ∧
      List.Sorted dueLe (get_overdue table today) ∧
      List.Perm (get_due_soon table today days)
        (table.filter (fun u => noticeInWindow today days u || dueInWindow today days u)) ∧
      List.Perm (get_overdue table today) (table.filter (dueBefore today)) :=
  ⟨List.sorted_insertionSort dueLe _, List.sorted_insertionSort dueLe _,
   List.perm_insertionSort dueLe _, List.perm_insertionSort dueLe _⟩

/-! ### Claim C4 -/

/-- Claim C4 as stated is false: `DateRange.contains` applied to an
absent (None) check date raises a `TypeError` (the chained comparison
`start_date <= None <= end_date` is unsupported in Python) instead of
returning false. -/
theorem C4_counterexample :
    (DateRange.make 0 (some 5) none).contains none =
        Except.error "TypeError: comparison between NoneType and date" ∧
      (DateRange.make 0 (some 5) none).contains none ≠ Except.ok false :=
  ⟨rfl, fun h => Except.noConfusion h⟩

/-- Claim C4 (amended): the is-past predicate (absent from the code,
modelled from the spec) is total over optional dates and returns false
on an absent date; the in-window predicate `DateRange.contains` is total
and exception-free on present dates — it returns exactly the window test
— but on an absent date it raises a `TypeError` rather than returning
false. -/
theorem C4_window_predicates (r : DateRange) (d referenceDate : Nat) :
    isPast none referenceDate = false ∧
      (isPast (some d) referenceDate = true ↔ d < referenceDate) ∧
      (r.contains (some d) = Except.ok true ↔ (r.start_date ≤ d ∧ d ≤ r.end_date)) ∧
      (∃ b, r.contains (some d) = Except.ok b) ∧
      r.contains none = Except.error "TypeError: comparison between NoneType and date" := by
  refine ⟨rfl, by simp [isPast], ?_, ⟨_, rfl⟩, rfl⟩
  simp [DateRange.contains]

/-! ### Claim C7 -/

/-- Claim C7 as stated is false: a negative numeric cell (amount `-5`)
is not normalized to 0 — `validate_user_data` raises a
`ValidationError` and the record is rejected (aborting the import). -/
theorem C7_counterexample :
    ingestNumeric "Amount must be a positive number" (CellVal.intv (-5)) =
      Except.error "Amount must be a positive number" := rfl

/-- Claim C7 (amended): a record admitted through the Excel ingestion
pipeline never carries a negative numeric field; missing (`NaN`) and
non-parseable numeric input normalizes to 0 at the Excel conversion;
but negative numeric input is rejected with a `ValidationError` (not
normalized), and a missing numeric value passed directly to record
construction is left as `None` rather than normalized to 0. -/
theorem C7_numeric_invariants (errMsg : String) (raw : CellVal) (n : Int) :
    (ingestNumeric errMsg raw = Except.ok (CellVal.intv n) → 0 ≤ n) ∧
      excelNumeric CellVal.nanv = 0 ∧
      (∀ s : String, s.toInt? = none → excelNumeric (CellVal.strv s) = 0) ∧
      (∀ m : Int, m < 0 → ingestNumeric errMsg (CellVal.intv m) = Except.error errMsg) ∧
      fromDictNumeric errMsg CellVal.nanv = Except.ok CellVal.nanv := by
  refine ⟨?_, rfl, ?_, ?_, rfl⟩
  · intro h
    unfold ingestNumeric fromDictNumeric at h
    by_cases h0 : (0:Int) ≤ excelNumeric raw
    · by_cases h1 : excelNumeric raw = 0
      · simp [validate_positive_integer, cellToIntOpt, cellTruthy, h0, h1] at h
        omega
      · simp [validate_positive_integer, cellToIntOpt, cellTruthy, h0, h1] at h
        omega
    · simp [validate_positive_integer, cellToIntOpt, h0] at h
  · intro s hs
    simp [excelNumeric, hs]
  · intro m hm
    have h0 : ¬ (0:Int) ≤ m := by omega
    unfold ingestNumeric fromDictNumeric
    simp [excelNumeric, validate_positive_integer, cellToIntOpt, h0]

/-- Witness for the theorem of claim C7: a valid amount 7 is admitted
non-negative, and a negative amount is rejected with the validation
error. -/
theorem C7_witness :
    (0:Int) ≤ 7 ∧
      ingestNumeric "Amount must be a positive number" (CellVal.intv (-3)) =
        Except.error "Amount must be a positive number" :=
  ⟨(C7_numeric_invariants "Amount must be a positive number" (CellVal.intv 7) 7).1 rfl,
   (C7_numeric_invariants "Amount must be a positive number" (CellVal.intv 7) 7).2.2.2.1
     (-3) (by decide)⟩

/-! Helper lemmas about `normalize_phone`. -/

theorem cleanPhone_chars {phone : List Char} {c : Char} (h : c ∈ cleanPhone phone) :
    phoneKeep c = true :=
  (List.mem_filter.mp h).2

theorem normalize_phone_chars (phone : List Char) :
    ∀ c ∈ normalize_phone phone, phoneKeep c = true := by
  intro c hc
  unfold normalize_phone at hc
  by_cases h : phone = []
  · simp [h] at hc
  · rw [if_neg h] at hc
    by_cases h1 : (cleanPhone phone).head? = some '+'
    · rw [if_pos h1] at hc
      exact cleanPhone_chars hc
    · rw [if_neg h1] at hc
      by_cases h2 : (cleanPhone phone).head? = some '0'
      · rw [if_pos h2] at hc
        simp only [List.mem_cons] at hc
        rcases hc with rfl | rfl | rfl | rfl | hc
        · decide
        · decide
        · decide
        · decide
        · exact cleanPhone_chars (List.mem_of_mem_tail hc)
      · rw [if_neg h2] at hc
        simp only [List.mem_cons] at hc
        rcases hc with rfl | hc
        · decide
        · exact cleanPhone_chars hc

theorem normalize_phone_head {phone : List Char} (h : phone ≠ []) :
    (normalize_phone phone).head? = some '+' := by
  unfold normalize_phone
  rw [if_neg h]
  by_cases h1 : (cleanPhone phone).head? = some '+'
  · rw [if_pos h1]
    exact h1
  · rw [if_neg h1]
    by_cases h2 : (cleanPhone phone).head? = some '0'
    · rw [if_pos h2]
      rfl
    · rw [if_neg h2]
      rfl

theorem normalize_phone_of_clean {l : List Char} (h : l ≠ [])
    (hc : cleanPhone l = l) (hh : l.head? = some '+') :
    normalize_phone l = l := by
  unfold normalize_phone
  rw [if_neg h, hc, if_pos hh]

/-! ### Claim C9 -/

/-- The digit string `883` (no leading `'+'`, no leading `'0'`). -/
def bareIntlDigits : List Char := ['8', '8', '3']

/-- Claim C9 as stated is false: a bare number with no leading `'+'`
and no leading `'0'` is prefixed with a bare `'+'` only — not with the
fixed country code `+359` that the transform of the claim prescribes for
every number without a leading `'+'`. -/
theorem C9_counterexample :
    normalize_phone bareIntlDigits = ['+', '8', '8', '3'] ∧
      claimedNormalizePhone bareIntlDigits = ['+', '3', '5', '9', '8', '8', '3'] ∧
      normalize_phone bareIntlDigits ≠ claimedNormalizePhone bareIntlDigits := by
  decide

/-- Claim C9 (amended): normalization is a deterministic string
transform: empty input yields empty output; otherwise the input is
stripped to its digit/plus characters and (a) returned unchanged when
the cleaned number starts with `'+'`, (b) its leading `'0'` is replaced
by the fixed country prefix `+359` when it starts with `'0'`, (c) a bare
`'+'` (no country code) is prepended in every other case; every non-empty
output starts with `'+'` and consists only of digit or plus characters. -/
theorem C9_normalize_phone (phone : List Char) :
    normalize_phone [] = ([] : List Char) ∧
      (phone ≠ [] → (cleanPhone phone).head? = some '+' →
        normalize_phone phone = cleanPhone phone) ∧
      (phone ≠ [] → (cleanPhone phone).head? = some '0' →
        normalize_phone phone = '+' :: '3' :: '5' :: '9' :: (cleanPhone phone).tail) ∧
      (phone ≠ [] → (cleanPhone phone).head? ≠ some '+' →
        (cleanPhone phone).head? ≠ some '0' →
        normalize_phone phone = '+' :: cleanPhone phone) ∧
      (phone ≠ [] → (normalize_phone phone).head? = some '+') ∧
      (∀ c ∈ normalize_phone phone, (c.isDigit || c == '+') = true) := by
  refine ⟨rfl, ?_, ?_, ?_, fun h => normalize_phone_head h, normalize_phone_chars phone⟩
  · intro h h1
    unfold normalize_phone
    rw [if_neg h, if_pos h1]
  · intro h h2
    have h1 : (cleanPhone phone).head? ≠ some '+' := by
      rw [h2]
      decide
    unfold normalize_phone
    rw [if_neg h, if_neg h1, if_pos h2]
  · intro h h1 h2
    unfold normalize_phone
    rw [if_neg h, if_neg h1, if_neg h2]

/-- Witness for the theorem of claim C9: concrete inputs exercising the
leading-zero branch and the bare-number branch. -/
theorem C9_witness :
    normalize_phone ['0', '8', '8'] =
        '+' :: '3' :: '5' :: '9' :: (cleanPhone ['0', '8', '8']).tail ∧
      normalize_phone ['8', '8', '3'] = '+' :: cleanPhone ['8', '8', '3'] :=
  ⟨(C9_normalize_phone ['0', '8', '8']).2.2.1 (by decide) (by decide),
   (C9_normalize_phone ['8', '8', '3']).2.2.2.1 (by decide) (by decide) (by decide)⟩

/-! ### Claim C10 -/

/-- Claim C10 (confirmed): `normalize_phone` is idempotent. -/
theorem C10_normalize_phone_idempotent (phone : List Char) :
    normalize_phone (normalize_phone phone) = normalize_phone phone := by
  by_cases h : phone = []
  · subst h
    rfl
  · have hh := normalize_phone_head h
    have hne : normalize_phone phone ≠ [] := by
      intro h0
      rw [h0] at hh
      exact Option.noConfusion hh
    have hc : cleanPhone (normalize_phone phone) = normalize_phone phone :=
      List.filter_eq_self.mpr (normalize_phone_chars phone)
    exact normalize_phone_of_clean hne hc hh
